import Mathlib

/-!
Verification of the Gaussian-process kernel-to-graph compiler in
`skl2onnx/operator_converters/_gp_kernels.py`.

The compiler walks a kernel expression tree and emits an ONNX subgraph.
Here the emitted subgraph is embedded by its mathematical semantics:
every ONNX operation builder (`OnnxAdd`, `OnnxMatMul`, ...) is replaced
by the function it computes on real-valued tensors, and every numpy
constant materialized along the way is recorded together with the dtype
handle the source passes to `np.array` / `py_make_float_array`.
Failure paths (`raise RuntimeError` / `ValueError` / `NotImplementedError`
/ `TypeError`) are embedded with `Except`.

Tensors are embedded untyped: a 2-D tensor is a function `ℕ → ℕ → ℝ`
read at row/column indices below the tensor's runtime extent, and a
1-D tensor is `ℕ → ℝ`.  Runtime shapes, where the source consults them
(`OnnxShape`, `x_train.shape`), are passed as explicit `List ℕ` values.
-/

/-- Values of a 2-D tensor, read at (row, column). -/
abbrev Mat : Type := ℕ → ℕ → ℝ

/-- Values of a 1-D tensor. -/
abbrev Vec : Type := ℕ → ℝ

/-- The two floating kinds a compilation may be configured with
(`np.float32` / `np.float64`). -/
inductive DType where
  | f32
  | f64
deriving DecidableEq

/-- The dtype handle passed to `np.array` when a constant is materialized:
the configured floating dtype variable, `np.int64` (shape-index arrays of
`_zero_vector_of_size`), or the Python builtin `type` (passed by the
source at the Matern nu=2.5 constant `np.array([1], dtype=type)`). -/
inductive NpDt where
  | cfg (d : DType)
  | int64
  | pyType
deriving DecidableEq

/-- A numpy constant materialized while emitting the graph: its values and
the dtype handle it was created with. -/
structure Const where
  vals : List ℝ
  dt : NpDt

/-- A compile-time-known numpy array operand (`x_train`): its shape and its
entries (read as a matrix when the shape is 2-D). -/
structure NDArr where
  shape : List ℕ
  val : Mat

/-- Embeds the exception classes raised by the source:
`RuntimeError`, `ValueError`, `NotImplementedError`, `TypeError`. -/
inductive Err where
  | runtime
  | value
  | notImpl
  | typeErr
deriving DecidableEq

/-- Matern smoothness parameter: a finite float value (embedded as a
rational, which the concrete comparisons `nu == 0.5` etc. need) or
`np.inf`. -/
inductive Nu where
  | val (q : ℚ)
  | inf
deriving DecidableEq

/-- Kernel expression tree; one constructor per kernel class the source
dispatches on by exact type (`Sum`, `Product`, `ConstantKernel`, `RBF`,
`Matern`, `RationalQuadratic`, `ExpSineSquared`, `DotProduct`,
`PairwiseKernel`, `WhiteKernel`).  Leaf parameters are the scalar kernel
parameters. -/
inductive Kernel where
  | sum (k1 k2 : Kernel)
  | prod (k1 k2 : Kernel)
  | constant (c : ℝ)
  | rbf (length_scale : ℝ)
  | matern (length_scale : ℝ) (nu : Nu)
  | rationalQuadratic (length_scale alpha : ℝ)
  | expSineSquared (length_scale periodicity : ℝ)
  | dotProduct (sigma_0 : ℝ)
  | pairwise (metric : String)
  | white (noise_level : ℝ)

/-- Distance metric selector passed to the distance primitives
("euclidean" / "sqeuclidean" in the source). -/
inductive Metric where
  | euclidean
  | sqeuclidean
deriving DecidableEq

/-- Boolean success test on an embedded compilation result. -/
def isOk {α : Type} : Except Err α → Bool
  | .ok _ => true
  | .error _ => false

noncomputable section

/- Semantics of the elementary ONNX operation builders used by the
compiler.  Suffix MM: matrix (op) matrix elementwise; Mc: matrix (op)
broadcast scalar constant; VV / Vc: the 1-D analogues. -/

/-- Semantics of `OnnxAdd` on two same-shape 2-D operands. -/
def OnnxAddMM (A B : Mat) : Mat := fun i j => A i j + B i j

/-- Semantics of `OnnxMul` on two same-shape 2-D operands. -/
def OnnxMulMM (A B : Mat) : Mat := fun i j => A i j * B i j

/-- Semantics of `OnnxAdd` of a 2-D operand and a broadcast scalar
constant. -/
def OnnxAddMc (A : Mat) (c : ℝ) : Mat := fun i j => A i j + c

/-- Semantics of `OnnxMul` of a 2-D operand and a broadcast scalar
constant. -/
def OnnxMulMc (A : Mat) (c : ℝ) : Mat := fun i j => A i j * c

/-- Semantics of `OnnxDiv` of a 2-D operand and a broadcast scalar
constant. -/
def OnnxDivMc (A : Mat) (c : ℝ) : Mat := fun i j => A i j / c

/-- Semantics of `OnnxPow` of a 2-D operand and a broadcast scalar float
exponent. -/
def OnnxPowMc (A : Mat) (c : ℝ) : Mat := fun i j => Real.rpow (A i j) c

/-- Semantics of elementwise `OnnxExp`. -/
def OnnxExpM (A : Mat) : Mat := fun i j => Real.exp (A i j)

/-- Semantics of elementwise `OnnxNeg`. -/
def OnnxNegM (A : Mat) : Mat := fun i j => -(A i j)

/-- Semantics of elementwise `OnnxSin`. -/
def OnnxSinM (A : Mat) : Mat := fun i j => Real.sin (A i j)

/-- Semantics of `OnnxTranspose` with `perm=[1, 0]`. -/
def OnnxTransposeM (A : Mat) : Mat := fun i j => A j i

/-- Semantics of the host-side numpy transpose `Y.T.astype(dtype)` taken on
a compile-time-known operand (the numeric twin of `OnnxTransposeM`). -/
def npTransposeM (A : Mat) : Mat := fun i j => A j i

/-- Semantics of `OnnxMatMul` with inner extent `k`. -/
def OnnxMatMul (k : ℕ) (A B : Mat) : Mat :=
  fun i j => ∑ t in Finset.range k, A i t * B t j

/-- Semantics of `OnnxAdd` on two same-length 1-D operands. -/
def OnnxAddVV (a b : Vec) : Vec := fun i => a i + b i

/-- Semantics of `OnnxMul` on two same-length 1-D operands. -/
def OnnxMulVV (a b : Vec) : Vec := fun i => a i * b i

/-- Semantics of `OnnxAdd` of a 1-D operand and a broadcast scalar
constant. -/
def OnnxAddVc (a : Vec) (c : ℝ) : Vec := fun i => a i + c

/-- Semantics of `OnnxReduceSumSquareApi18` with `axes=[1]` (keepdims),
over `d` features: output column 0 holds the squared row norms. -/
def OnnxReduceSumSquareM (d : ℕ) (A : Mat) : Mat :=
  fun i _ => ∑ t in Finset.range d, (A i t) ^ 2

/-- Semantics of `OnnxSqueezeApi11` with `axes=[1]` on an `[n, 1]`
operand. -/
def OnnxSqueezeM (A : Mat) : Vec := fun i => A i 0

/-- Semantics of `OnnxReduceL2_typed` with `axes=[1]` (keepdims) over `d`
features: output column 0 holds the row L2 norms. -/
def OnnxReduceL2M (d : ℕ) (A : Mat) : Mat :=
  fun i _ => Real.sqrt (∑ t in Finset.range d, (A i t) ^ 2)

/-- Semantics of `OnnxDiv` of an `[n, d]` operand by a broadcast `[n, 1]`
operand (row-wise division). -/
def OnnxDivByCol (A C : Mat) : Mat := fun i j => A i j / C i 0

/-- Semantics of `OnnxEyeLike` (identity matrix shaped like its operand;
the operand only fixes the shape). -/
def OnnxEyeLikeM (_A : Mat) : Mat := fun i j => if i = j then 1 else 0

/-- Squared Euclidean distance of two points over `d` features. -/
def pdist2 (d : ℕ) (x y : Vec) : ℝ := ∑ t in Finset.range d, (x t - y t) ^ 2

/-- Pairwise point distance under a metric, over `d` features. -/
def distOf (m : Metric) (d : ℕ) (x y : Vec) : ℝ :=
  match m with
  | .sqeuclidean => pdist2 d x y
  | .euclidean => Real.sqrt (pdist2 d x y)

/-- Modelled from the spec: `onnx_cdist` (the repository file
`algebra/complex_functions.py` is not under src).  Per spec section 4.4,
the default strategy emits, purely from elementary operations, the
pairwise distance matrix between the rows of the two point sets for the
stated metric. -/
def onnx_cdist (d : ℕ) (metric : Metric) (X Y : Mat) : Mat :=
  fun i j => distOf metric d (X i) (Y j)

/-- Modelled from the spec: the fused distance primitive `OnnxCDist`
(the repository file `algebra/custom_ops.py` is not under src).  Per spec
section 4.4, it is a single specialized node computing the pairwise
distance matrix for the metric it is given. -/
def OnnxCDistSem (d : ℕ) (metric : Metric) (X Y : Mat) : Mat :=
  fun i j => distOf metric d (X i) (Y j)

/-- Modelled from the spec: `onnx_squareform_pdist` (the repository file
`algebra/complex_functions.py` is not under src).  Per spec section 4.4,
the single-set form computes the full pairwise distance matrix of one
point set against itself for the stated metric. -/
def onnx_squareform_pdist (d : ℕ) (metric : Metric) (X : Mat) : Mat :=
  fun i j => distOf metric d (X i) (X j)

/-- Embeds `py_make_float_array` on a scalar: requires the dtype handle to
be one of the two floating kinds, else `TypeError`; on success
materializes the one-element constant with that dtype. -/
def py_make_float_array (cst : ℝ) (dtype : NpDt) : Except Err Const :=
  match dtype with
  | .cfg d => .ok ⟨[cst], .cfg d⟩
  | _ => .error .typeErr

/-- Result of `_zero_vector_of_size`: the `OnnxConstantOfShape` output,
described by the runtime shape it takes, the fill value of its entries,
and the constants materialized while building it. -/
structure ZTensor where
  shape : List ℕ
  fill : ℝ
  consts : List Const

/-- Embeds `_zero_vector_of_size`.  `xShape` is the runtime shape of `X`
(what `OnnxShape(X)` returns); `axis` selects the row count (0) or the
column count (otherwise); `keepdims` embeds the Python `keepdims=None`
default as `none`.  Mirrors the source: missing `op_version` is a
`RuntimeError`, missing `keepdims` a `ValueError`; `OnnxGather` of index
`[axis]` then, when `keepdims` is truthy, `OnnxConcat` with a `[1]`
int64 array (after the gathered dim for axis 0, before it otherwise);
`OnnxConstantOfShape` fills the result with the scalar 0 constant built
in the configured dtype. -/
def _zero_vector_of_size (xShape : List ℕ) (axis : ℕ) (keepdims : Option Bool)
    (dtype : DType) (op_version : Option ℕ) : Except Err ZTensor :=
  match op_version with
  | none => .error .runtime
  | some _ =>
    match keepdims with
    | none => .error .value
    | some kd =>
      if axis = 0 then
        let dim : List ℕ := [xShape.getD 0 0]
        if kd then
          .ok ⟨dim ++ [1], 0, [⟨[0], .int64⟩, ⟨[1], .int64⟩, ⟨[0], .cfg dtype⟩]⟩
        else
          .ok ⟨dim, 0, [⟨[0], .int64⟩, ⟨[0], .cfg dtype⟩]⟩
      else
        let dim : List ℕ := [xShape.getD 1 0]
        if kd then
          .ok ⟨[1] ++ dim, 0, [⟨[1], .int64⟩, ⟨[1], .int64⟩, ⟨[0], .cfg dtype⟩]⟩
        else
          .ok ⟨dim, 0, [⟨[1], .int64⟩, ⟨[0], .cfg dtype⟩]⟩

/-- The second operand handed to a formula compiler: either a graph-time
symbolic tensor (`X` itself, when `x_train is None`) or a
compile-time-known numpy array (the training set). -/
inductive YOp where
  | var (M : Mat)
  | arr (T : NDArr)

/-- Embeds `_convert_exp_sine_squared` over `d` features.  The distance
strategy is selected first (`optim is None` → `onnx_cdist`;
`optim == "cdist"` → fused `OnnxCDist`; otherwise `ValueError`), always
with metric "euclidean"; then
`K = exp(-2 * (sin(pi * dists / periodicity) / length_scale) ** 2)`,
materializing pi, periodicity, 2, -2 and length_scale as constants in the
configured dtype. -/
def _convert_exp_sine_squared (d : ℕ) (X Y : Mat) (length_scale periodicity : ℝ)
    (dtype : DType) (optim : Option String) (op_version : Option ℕ) :
    Except Err (Mat × List Const) :=
  let distsE : Except Err Mat :=
    match optim with
    | none => .ok (onnx_cdist d .euclidean X Y)
    | some s =>
      if s = "cdist" then .ok (OnnxCDistSem d .euclidean X Y) else .error .value
  match distsE with
  | .error e => .error e
  | .ok dists =>
    match py_make_float_array Real.pi (.cfg dtype),
          py_make_float_array periodicity (.cfg dtype) with
    | .ok t_pi, .ok t_periodicity =>
      let arg := OnnxMulMc (OnnxDivMc dists periodicity) Real.pi
      let sin_of_arg := OnnxSinM arg
      match py_make_float_array 2 (.cfg dtype),
            py_make_float_array (-2) (.cfg dtype),
            py_make_float_array length_scale (.cfg dtype) with
      | .ok t_2, .ok t__2, .ok t_length_scale =>
        let K := OnnxExpM
          (OnnxMulMc (OnnxPowMc (OnnxDivMc sin_of_arg length_scale) 2) (-2))
        .ok (K, [t_pi, t_periodicity, t_2, t__2, t_length_scale])
      | .error e, _, _ => .error e
      | _, .error e, _ => .error e
      | _, _, .error e => .error e
    | .error e, _ => .error e
    | _, .error e => .error e

/-- Embeds `_convert_dot_product` over `d` features:
`K = X . Y^t + sigma_0 ** 2`, with the transpose taken in host code when
`Y` is a compile-time-known array and as an `OnnxTranspose` node
otherwise, and sigma_0 ** 2 materialized in the configured dtype. -/
def _convert_dot_product (d : ℕ) (X : Mat) (Y : YOp) (sigma_0 : ℝ)
    (dtype : DType) (op_version : Option ℕ) : Except Err (Mat × List Const) :=
  match py_make_float_array (sigma_0 ^ 2) (.cfg dtype) with
  | .error e => .error e
  | .ok t_sigma_0 =>
    let tr : Mat :=
      match Y with
      | .arr T => npTransposeM T.val
      | .var M => OnnxTransposeM M
    let matm := OnnxMatMul d X tr
    .ok (OnnxAddMc matm (sigma_0 ^ 2), [t_sigma_0])

/-- Embeds `_convert_rational_quadratic` over `d` features.  Distance
strategy as in the other formula compilers but with metric "sqeuclidean";
then `K = (1 + dists / (2 * alpha * length_scale ** 2)) ** (-alpha)`,
materializing the denominator constant, 1 and -alpha in the configured
dtype. -/
def _convert_rational_quadratic (d : ℕ) (X Y : Mat) (length_scale alpha : ℝ)
    (dtype : DType) (optim : Option String) (op_version : Option ℕ) :
    Except Err (Mat × List Const) :=
  let distsE : Except Err Mat :=
    match optim with
    | none => .ok (onnx_cdist d .sqeuclidean X Y)
    | some s =>
      if s = "cdist" then .ok (OnnxCDistSem d .sqeuclidean X Y) else .error .value
  match distsE with
  | .error e => .error e
  | .ok dists =>
    let cst := length_scale ^ 2 * alpha * 2
    match py_make_float_array cst (.cfg dtype) with
    | .error e => .error e
    | .ok t_cst =>
      let tmp := OnnxDivMc dists cst
      match py_make_float_array 1 (.cfg dtype) with
      | .error e => .error e
      | .ok t_one =>
        let base := OnnxAddMc tmp 1
        match py_make_float_array (-alpha) (.cfg dtype) with
        | .error e => .error e
        | .ok t_alpha =>
          .ok (OnnxPowMc base (-alpha), [t_cst, t_one, t_alpha])

/-- Embeds `_convert_pairwise_kernel` over `d` features.  Only the
"cosine" metric is implemented: both operands are divided row-wise by
their L2 row norms and multiplied, the second operand normalized and
transposed in host code when it is a compile-time-known array; any other
metric raises `NotImplementedError`. -/
def _convert_pairwise_kernel (d : ℕ) (X : Mat) (Y : YOp) (metric : String)
    (dtype : DType) (optim : Option String) (op_version : Option ℕ) :
    Except Err (Mat × List Const) :=
  if metric = "cosine" then
    let norm_try : Mat :=
      match Y with
      | .arr T =>
        npTransposeM (fun i j =>
          T.val i j / Real.sqrt (∑ t in Finset.range d, (T.val i t) ^ 2))
      | .var M => OnnxTransposeM (OnnxDivByCol M (OnnxReduceL2M d M))
    let nx := OnnxReduceL2M d X
    let norm_x := OnnxDivByCol X nx
    .ok (OnnxMatMul d norm_x norm_try, [])
  else .error .notImpl

/-- Embeds the formula stage of the shared `RBF` / `Matern` branch of
`convert_kernel` (`nu = none` plays the role of `type(kernel) is RBF`),
applied to the already-selected distance subgraph: `exp(-0.5 * dist)` for
RBF, and the sequentially checked nu = 0.5 / 1.5 / 2.5 / inf Matern
closed forms, raising `RuntimeError` for any other nu.  The nu = 2.5 form
materializes its constant 1 with the Python builtin `type` as dtype
handle (source line `np.array([1], dtype=type)`); every other constant
uses the configured dtype. -/
def rbf_matern_formula (nu : Option Nu) (dist : Mat) (dtype : DType)
    (cConst : Const) : Except Err (Mat × List Const) :=
  match nu with
  | none =>
    .ok (OnnxExpM (OnnxNegM (OnnxMulMc dist (0.5 : ℝ))),
         [cConst, ⟨[(0.5 : ℝ)], .cfg dtype⟩])
  | some nuv =>
    if nuv = .val (1 / 2) then
      .ok (OnnxExpM (OnnxNegM dist), [cConst])
    else if nuv = .val (3 / 2) then
      let K := OnnxMulMc dist (Real.sqrt 3)
      .ok (OnnxMulMM (OnnxAddMc K 1) (OnnxExpM (OnnxNegM K)),
           [cConst, ⟨[Real.sqrt 3], .cfg dtype⟩, ⟨[1], .cfg dtype⟩])
    else if nuv = .val (5 / 2) then
      let K := OnnxMulMc dist (Real.sqrt 5)
      let exp_k := OnnxExpM (OnnxNegM K)
      let k_12 := OnnxAddMM (OnnxAddMc K 1) (OnnxDivMc (OnnxMulMM K K) 3)
      .ok (OnnxMulMM k_12 exp_k,
           [cConst, ⟨[Real.sqrt 5], .cfg dtype⟩, ⟨[1], .pyType⟩, ⟨[3], .cfg dtype⟩])
    else if nuv = .inf then
      .ok (OnnxExpM (OnnxNegM (OnnxDivMc (OnnxMulMM dist dist) 2)),
           [cConst, ⟨[2], .cfg dtype⟩])
    else .error .runtime

/-- Embeds the distance-selection stage of the shared `RBF` / `Matern`
branch of `convert_kernel`, handing the distance to
`rbf_matern_formula`.  The length scale is materialized in the configured
dtype and both point sets are divided by it; without `x_train` the
distance is a single-set pairwise distance with metric "sqeuclidean" for
RBF and "euclidean" for Matern; with `x_train` the default strategy keeps
that metric choice while the fused strategy passes metric "sqeuclidean"
unconditionally, and any other `optim` raises `ValueError`. -/
def convert_rbf_matern (nu : Option Nu) (length_scale : ℝ) (xShape : List ℕ)
    (X : Mat) (x_train : Option NDArr) (dtype : DType) (optim : Option String)
    (op_version : Option ℕ) : Except Err (Mat × List Const) :=
  let d := xShape.getD 1 0
  let cConst : Const := ⟨[length_scale], .cfg dtype⟩
  let X_scaled := OnnxDivMc X length_scale
  let met : Metric := if nu.isNone then .sqeuclidean else .euclidean
  let distE : Except Err Mat :=
    match x_train with
    | none => .ok (onnx_squareform_pdist d met X_scaled)
    | some T =>
      let x_train_scaled := OnnxDivMc T.val length_scale
      match optim with
      | none => .ok (onnx_cdist d met X_scaled x_train_scaled)
      | some s =>
        if s = "cdist" then .ok (OnnxCDistSem d .sqeuclidean X_scaled x_train_scaled)
        else .error .value
  match distE with
  | .error e => .error e
  | .ok dist => rbf_matern_formula nu dist dtype cConst

/-- Embeds `convert_kernel_diag`: the diagonal compiler.  Missing
`op_version` is a `RuntimeError`; `Sum` / `Product` recurse into both
children and combine elementwise; `ConstantKernel` is a flat zero vector
plus the constant; `RBF` / `ExpSineSquared` / `RationalQuadratic` /
`Matern` are a flat zero vector plus 1; `DotProduct` is the squared row
norms plus sigma_0 ** 2, squeezed; any other kernel raises
`RuntimeError`.  `optim` is threaded to the recursion and otherwise
unused. -/
def convert_kernel_diag (kernel : Kernel) (xShape : List ℕ) (X : Mat)
    (dtype : DType) (optim : Option String) (op_version : Option ℕ) :
    Except Err (Vec × List Const) :=
  match op_version with
  | none => .error .runtime
  | some w =>
    match kernel with
    | .sum k1 k2 =>
      match convert_kernel_diag k1 xShape X dtype optim (some w),
            convert_kernel_diag k2 xShape X dtype optim (some w) with
      | .ok r1, .ok r2 => .ok (OnnxAddVV r1.1 r2.1, r1.2 ++ r2.2)
      | .error e, _ => .error e
      | _, .error e => .error e
    | .prod k1 k2 =>
      match convert_kernel_diag k1 xShape X dtype optim (some w),
            convert_kernel_diag k2 xShape X dtype optim (some w) with
      | .ok r1, .ok r2 => .ok (OnnxMulVV r1.1 r2.1, r1.2 ++ r2.2)
      | .error e, _ => .error e
      | _, .error e => .error e
    | .constant c =>
      match _zero_vector_of_size xShape 0 (some false) dtype (some w) with
      | .error e => .error e
      | .ok z =>
        .ok (OnnxAddVc (fun _ => z.fill) c, z.consts ++ [⟨[c], .cfg dtype⟩])
    | .rbf _ | .expSineSquared _ _ | .rationalQuadratic _ _ | .matern _ _ =>
      -- both the `isinstance(kernel, RBF)` branch and the fall-through
      -- branch of the source return the zero vector plus 1
      match _zero_vector_of_size xShape 0 (some false) dtype (some w) with
      | .error e => .error e
      | .ok z =>
        .ok (OnnxAddVc (fun _ => z.fill) 1, z.consts ++ [⟨[1], .cfg dtype⟩])
    | .dotProduct sigma_0 =>
      match py_make_float_array (sigma_0 ^ 2) (.cfg dtype) with
      | .error e => .error e
      | .ok t_sigma_0 =>
        .ok (OnnxSqueezeM
               (OnnxAddMc (OnnxReduceSumSquareM (xShape.getD 1 0) X) (sigma_0 ^ 2)),
             [t_sigma_0])
    | .pairwise _ | .white _ => .error .runtime

/-- Embeds `convert_kernel`: the composite dispatcher.  Missing
`op_version` is a `RuntimeError`; `Sum` / `Product` recurse into both
children with identical arguments and combine elementwise; the leaf
kernels dispatch to their formula compilers; `DotProduct` checks, only
when `x_train` is supplied, that the training set is 2-D; `WhiteKernel`
is a zero matrix when `x_train` is supplied and `noise_level * eye`
otherwise. -/
def convert_kernel (kernel : Kernel) (xShape : List ℕ) (X : Mat)
    (x_train : Option NDArr) (dtype : DType) (optim : Option String)
    (op_version : Option ℕ) : Except Err (Mat × List Const) :=
  match op_version with
  | none => .error .runtime
  | some w =>
    match kernel with
    | .sum k1 k2 =>
      match convert_kernel k1 xShape X x_train dtype optim (some w),
            convert_kernel k2 xShape X x_train dtype optim (some w) with
      | .ok r1, .ok r2 => .ok (OnnxAddMM r1.1 r2.1, r1.2 ++ r2.2)
      | .error e, _ => .error e
      | _, .error e => .error e
    | .prod k1 k2 =>
      match convert_kernel k1 xShape X x_train dtype optim (some w),
            convert_kernel k2 xShape X x_train dtype optim (some w) with
      | .ok r1, .ok r2 => .ok (OnnxMulMM r1.1 r2.1, r1.2 ++ r2.2)
      | .error e, _ => .error e
      | _, .error e => .error e
    | .constant c =>
      match _zero_vector_of_size xShape 0 (some true) dtype (some w) with
      | .error e => .error e
      | .ok zx =>
        match x_train with
        | none =>
          -- onnx_zeros_y is the very node onnx_zeros_x, so its constants
          -- are materialized once
          .ok (OnnxAddMc
                 (OnnxMatMul (zx.shape.getD 1 0) (fun _ _ => zx.fill)
                   (OnnxTransposeM (fun _ _ => zx.fill))) c,
               zx.consts ++ [⟨[c], .cfg dtype⟩])
        | some T =>
          match _zero_vector_of_size T.shape 0 (some true) dtype (some w) with
          | .error e => .error e
          | .ok zy =>
            .ok (OnnxAddMc
                   (OnnxMatMul (zx.shape.getD 1 0) (fun _ _ => zx.fill)
                     (OnnxTransposeM (fun _ _ => zy.fill))) c,
                 zx.consts ++ zy.consts ++ [⟨[c], .cfg dtype⟩])
    | .rbf length_scale =>
      convert_rbf_matern none length_scale xShape X x_train dtype optim (some w)
    | .matern length_scale nu =>
      convert_rbf_matern (some nu) length_scale xShape X x_train dtype optim (some w)
    | .expSineSquared length_scale periodicity =>
      -- the `isinstance(kernel.length_scale, (float, int))` guard is
      -- trivially met: leaf parameters are scalars in this embedding
      match x_train with
      | none =>
        _convert_exp_sine_squared (xShape.getD 1 0) X X length_scale periodicity
          dtype optim (some w)
      | some T =>
        _convert_exp_sine_squared (xShape.getD 1 0) X T.val length_scale periodicity
          dtype optim (some w)
    | .dotProduct sigma_0 =>
      -- the `isinstance(kernel.sigma_0, (float, int))` guard is trivially
      -- met: leaf parameters are scalars in this embedding
      match x_train with
      | none =>
        _convert_dot_product (xShape.getD 1 0) X (.var X) sigma_0 dtype (some w)
      | some T =>
        if T.shape.length ≠ 2 then .error .notImpl
        else _convert_dot_product (xShape.getD 1 0) X (.arr T) sigma_0 dtype (some w)
    | .rationalQuadratic length_scale alpha =>
      match x_train with
      | none =>
        _convert_rational_quadratic (xShape.getD 1 0) X X length_scale alpha
          dtype optim (some w)
      | some T =>
        _convert_rational_quadratic (xShape.getD 1 0) X T.val length_scale alpha
          dtype optim (some w)
    | .pairwise metric =>
      match x_train with
      | none =>
        _convert_pairwise_kernel (xShape.getD 1 0) X (.var X) metric dtype optim (some w)
      | some T =>
        _convert_pairwise_kernel (xShape.getD 1 0) X (.arr T) metric dtype optim (some w)
    | .white noise_level =>
      match _zero_vector_of_size xShape 0 (some true) dtype (some w) with
      | .error e => .error e
      | .ok zx =>
        match x_train with
        | none =>
          -- onnx_zeros_y is the very node onnx_zeros_x; without x_train
          -- the result is noise_level * eye(mat)
          .ok (OnnxMulMM
                 (OnnxEyeLikeM
                   (OnnxMatMul (zx.shape.getD 1 0) (fun _ _ => zx.fill)
                     (OnnxTransposeM (fun _ _ => zx.fill))))
                 (fun _ _ => noise_level),
               zx.consts ++ [⟨[noise_level], .cfg dtype⟩])
        | some T =>
          match _zero_vector_of_size T.shape 0 (some true) dtype (some w) with
          | .error e => .error e
          | .ok zy =>
            -- with x_train the zero product matrix is returned through
            -- OnnxIdentity unchanged
            .ok (OnnxMatMul (zx.shape.getD 1 0) (fun _ _ => zx.fill)
                   (OnnxTransposeM (fun _ _ => zy.fill)),
                 zx.consts ++ zy.consts)

end

lemma pdist2_self (d : ℕ) (x : Vec) : pdist2 d x x = 0 := by
  simp [pdist2]

lemma distOf_self (m : Metric) (d : ℕ) (x : Vec) : distOf m d x x = 0 := by
  cases m <;> simp [distOf, pdist2_self]

lemma rbf_matern_formula_unit_diag (nu : Option Nu) (dist : Mat) (dt : DType)
    (cc : Const) (M : Mat) (cM : List Const)
    (h : rbf_matern_formula nu dist dt cc = .ok (M, cM)) (i : ℕ)
    (h0 : dist i i = 0) : M i i = 1 := by
  rcases nu with _ | nuv
  · simp only [rbf_matern_formula, Except.ok.injEq, Prod.mk.injEq] at h
    rw [← h.1]
    simp [OnnxExpM, OnnxNegM, OnnxMulMc, h0]
  · simp only [rbf_matern_formula] at h
    split at h
    · simp only [Except.ok.injEq, Prod.mk.injEq] at h
      rw [← h.1]
      simp [OnnxExpM, OnnxNegM, h0]
    · split at h
      · simp only [Except.ok.injEq, Prod.mk.injEq] at h
        rw [← h.1]
        simp [OnnxMulMM, OnnxAddMc, OnnxExpM, OnnxNegM, OnnxMulMc, h0]
      · split at h
        · simp only [Except.ok.injEq, Prod.mk.injEq] at h
          rw [← h.1]
          simp [OnnxMulMM, OnnxAddMM, OnnxAddMc, OnnxDivMc, OnnxExpM, OnnxNegM,
            OnnxMulMc, h0]
        · split at h
          · simp only [Except.ok.injEq, Prod.mk.injEq] at h
            rw [← h.1]
            simp [OnnxExpM, OnnxNegM, OnnxDivMc, OnnxMulMM, h0]
          · exact absurd h (by simp)

lemma convert_rbf_matern_unit_diag (nu : Option Nu) (l : ℝ) (xs : List ℕ)
    (X : Mat) (dt : DType) (o : Option String) (w : ℕ) (M : Mat)
    (cM : List Const)
    (h : convert_rbf_matern nu l xs X (some ⟨xs, X⟩) dt o (some w) = .ok (M, cM)) :
    ∀ i, M i i = 1 := by
  intro i
  rcases o with _ | s
  · simp only [convert_rbf_matern] at h
    exact rbf_matern_formula_unit_diag nu _ dt _ M cM h i
      (distOf_self _ _ _)
  · simp only [convert_rbf_matern] at h
    by_cases hs : s = "cdist"
    · rw [if_pos hs] at h
      exact rbf_matern_formula_unit_diag nu _ dt _ M cM h i
        (distOf_self _ _ _)
    · rw [if_neg hs] at h
      exact absurd h (by simp)

/-- C4 counterexample: at input shape `[2, 3]`, `axis = 1` and
`keep_second_dim` set, the zero builder returns shape `[1, 3]` — a
leading, not trailing, singleton dimension — refuting the claimed shape
`[count, 1] = [3, 1]`. -/
theorem c4_axis1_keepdims_counterexample :
    (_zero_vector_of_size [2, 3] 1 (some true) .f64 (some 12)).map ZTensor.shape
      = .ok [1, 3] ∧ ([1, 3] : List ℕ) ≠ [3, 1] :=
  ⟨rfl, by decide⟩

/-- C4 (amended): with valid `op_version` and an explicit
`keep_second_dim`, the zero builder returns a tensor filled with zeros;
its length is `X`'s row count for `axis = 0` and its column count
otherwise; with `keep_second_dim` set the shape is `[rows, 1]` for
`axis = 0` but `[1, cols]` (leading singleton) for `axis = 1`; unset, the
result is the flat vector `[rows]` / `[cols]`. -/
theorem c4_zero_builder_shapes (xs : List ℕ) (axis : ℕ) (b : Bool)
    (dt : DType) (w : ℕ) :
    (_zero_vector_of_size xs axis (some b) dt (some w)).map
        (fun z => (z.shape, z.fill))
      = .ok
        (if axis = 0 then
           (if b then [xs.getD 0 0, 1] else [xs.getD 0 0])
         else
           (if b then [1, xs.getD 1 0] else [xs.getD 1 0]), 0) := by
  by_cases ha : axis = 0 <;> cases b <;>
    simp [_zero_vector_of_size, ha, Except.map]

/-- C7: compiling with `op_version = None` fails immediately with a
`RuntimeError` for every kernel expression and every input, on both the
full compiler and the diagonal compiler; no subgraph is produced. -/
theorem c7_op_version_required (k : Kernel) (xs : List ℕ) (X : Mat)
    (xt : Option NDArr) (dt : DType) (o : Option String) :
    convert_kernel k xs X xt dt o none = .error .runtime ∧
    convert_kernel_diag k xs X dt o none = .error .runtime := by
  cases k <;> exact ⟨rfl, rfl⟩

/-- C5 counterexample: an unrecognized `optim` value is accepted without
any error on the RBF path when no second point set is supplied — the
compilation succeeds, refuting that every compilation path validates
`optim`. -/
theorem c5_unvalidated_optim_counterexample :
    isOk (convert_kernel (.rbf 1) [2, 1] (fun _ _ => 0) none .f64
      (some "bogus") (some 12)) = true := rfl

/-- C5 (amended): an `optim` value outside the recognized set (`None` and
"cdist") raises a `ValueError` only on the paths that consume the
two-set distance strategy — `RBF` / `Matern` (any nu) when `x_train` is
supplied, and `ExpSineSquared` / `RationalQuadratic` on every path (with
and without `x_train`) — while paths that never select a two-set
distance — `RBF` / `Matern` without `x_train`, `ConstantKernel`,
`DotProduct`, `PairwiseKernel` and `WhiteKernel` — accept any `optim`
value without validation: on those paths the result is identical to the
result under the default `optim = None`. -/
theorem c5_optim_validated_at_distance_paths (s : String)
    (hs : s ≠ "cdist") (l p a c s0 nl : ℝ) (m : String) (nu : Nu)
    (xs : List ℕ) (X : Mat) (xt : Option NDArr) (T : NDArr)
    (dt : DType) (w : ℕ) :
    convert_kernel (.rbf l) xs X (some T) dt (some s) (some w) = .error .value
    ∧ convert_kernel (.matern l nu) xs X (some T) dt (some s) (some w)
        = .error .value
    ∧ convert_kernel (.expSineSquared l p) xs X none dt (some s) (some w)
        = .error .value
    ∧ convert_kernel (.expSineSquared l p) xs X (some T) dt (some s) (some w)
        = .error .value
    ∧ convert_kernel (.rationalQuadratic l a) xs X none dt (some s) (some w)
        = .error .value
    ∧ convert_kernel (.rationalQuadratic l a) xs X (some T) dt (some s) (some w)
        = .error .value
    ∧ convert_kernel (.rbf l) xs X none dt (some s) (some w)
        = convert_kernel (.rbf l) xs X none dt none (some w)
    ∧ convert_kernel (.matern l nu) xs X none dt (some s) (some w)
        = convert_kernel (.matern l nu) xs X none dt none (some w)
    ∧ convert_kernel (.constant c) xs X xt dt (some s) (some w)
        = convert_kernel (.constant c) xs X xt dt none (some w)
    ∧ convert_kernel (.dotProduct s0) xs X xt dt (some s) (some w)
        = convert_kernel (.dotProduct s0) xs X xt dt none (some w)
    ∧ convert_kernel (.pairwise m) xs X xt dt (some s) (some w)
        = convert_kernel (.pairwise m) xs X xt dt none (some w)
    ∧ convert_kernel (.white nl) xs X xt dt (some s) (some w)
        = convert_kernel (.white nl) xs X xt dt none (some w) := by
  refine ⟨?_, ?_, ?_, ?_, ?_, ?_, rfl, rfl, rfl, rfl, rfl, rfl⟩ <;>
    simp [convert_kernel, convert_rbf_matern, rbf_matern_formula,
      _convert_exp_sine_squared, _convert_rational_quadratic,
      py_make_float_array, hs, isOk]

/-- C5 witness: the amended behavior at the concrete unrecognized value
"x": ValueError on the distance-strategy paths, and an unvalidated,
optim-independent result on the others. -/
theorem c5_witness :
    convert_kernel (.rbf 1) [2, 1] (fun _ _ => 0)
        (some ⟨[2, 1], fun _ _ => 0⟩) .f64 (some "x") (some 12)
      = .error .value
    ∧ convert_kernel (.expSineSquared 1 1) [2, 1] (fun _ _ => 0)
        (some ⟨[2, 1], fun _ _ => 0⟩) .f64 (some "x") (some 12)
      = .error .value
    ∧ convert_kernel (.constant 1) [2, 1] (fun _ _ => 0) none .f64
        (some "x") (some 12)
      = convert_kernel (.constant 1) [2, 1] (fun _ _ => 0) none .f64
          none (some 12) := by
  have h := c5_optim_validated_at_distance_paths "x" (by decide) 1 1 1 1 1 1
    "cosine" .inf [2, 1] (fun _ _ => 0) none ⟨[2, 1], fun _ _ => 0⟩ .f64 12
  exact ⟨h.1, h.2.2.2.1, h.2.2.2.2.2.2.2.2.1⟩

/-- C6 counterexample: `DotProduct` compiles successfully although `X` is
not 2-dimensional (runtime shape `[3]`), as long as the supplied training
set is 2-D — refuting that compilation fails whenever either operand is
not 2-dimensional. -/
theorem c6_non_2d_x_counterexample :
    isOk (convert_kernel (.dotProduct 1) [3] (fun _ _ => 0)
      (some ⟨[2, 2], fun _ _ => 0⟩) .f64 none (some 12)) = true := rfl

/-- C6 (amended): for `DotProduct` the compiler raises
`NotImplementedError` exactly when a training set is supplied and that
training set is not 2-dimensional; the check happens before the
dot-product formula subgraph is emitted, `X`'s dimensionality is never
checked, and no check at all occurs when `x_train` is absent. -/
theorem c6_dot_product_rank_check (s0 : ℝ) (xs : List ℕ) (X : Mat)
    (T : NDArr) (dt : DType) (o : Option String) (w : ℕ) :
    (T.shape.length ≠ 2 →
      convert_kernel (.dotProduct s0) xs X (some T) dt o (some w)
        = .error .notImpl)
    ∧ (T.shape.length = 2 →
      isOk (convert_kernel (.dotProduct s0) xs X (some T) dt o (some w))
        = true)
    ∧ isOk (convert_kernel (.dotProduct s0) xs X none dt o (some w)) = true := by
  refine ⟨fun h => ?_, fun h => ?_, ?_⟩
  · simp [convert_kernel, h]
  · simp [convert_kernel, _convert_dot_product, py_make_float_array, isOk, h]
  · simp [convert_kernel, _convert_dot_product, py_make_float_array, isOk]

/-- C6 witness: the amended behavior at a concrete 1-D training set and a
concrete 2-D training set. -/
theorem c6_witness :
    convert_kernel (.dotProduct 1) [2, 2] (fun _ _ => 0)
        (some ⟨[3], fun _ _ => 0⟩) .f64 none (some 12) = .error .notImpl
    ∧ isOk (convert_kernel (.dotProduct 1) [2, 2] (fun _ _ => 0)
        (some ⟨[4, 2], fun _ _ => 0⟩) .f64 none (some 12)) = true :=
  ⟨(c6_dot_product_rank_check 1 [2, 2] (fun _ _ => 0) ⟨[3], fun _ _ => 0⟩
      .f64 none 12).1 (by decide),
   (c6_dot_product_rank_check 1 [2, 2] (fun _ _ => 0) ⟨[4, 2], fun _ _ => 0⟩
      .f64 none 12).2.1 (by decide)⟩

/-- C2: for Matern(length_scale 1, nu 0.5) on the one-point sets X = [[0]]
and x_train = [[2]], the default strategy feeds the Euclidean distance 2
into the Matern formula (producing exp(-2)) but the fused strategy passes
metric "sqeuclidean" to the distance primitive, feeding 4 and producing
exp(-4); the two strategies therefore do not compute the same
mathematical quantity, refuting the claim at this input. -/
theorem c2_fused_matern_metric_mismatch :
    (convert_kernel (.matern 1 (.val (1 / 2))) [1, 1] (fun _ _ => 0)
        (some ⟨[1, 1], fun _ _ => 2⟩) .f64 none (some 12)).map (fun r => r.1 0 0)
      = .ok (Real.exp (-2))
    ∧ (convert_kernel (.matern 1 (.val (1 / 2))) [1, 1] (fun _ _ => 0)
        (some ⟨[1, 1], fun _ _ => 2⟩) .f64 (some "cdist") (some 12)).map
          (fun r => r.1 0 0)
      = .ok (Real.exp (-4))
    ∧ Real.exp (-2) ≠ Real.exp (-4) := by
  have hsq : Real.sqrt (4 : ℝ) = 2 := by
    rw [show (4 : ℝ) = 2 ^ 2 by norm_num,
      Real.sqrt_sq (by norm_num : (0 : ℝ) ≤ 2)]
  refine ⟨?_, ?_, ?_⟩
  · norm_num [convert_kernel, convert_rbf_matern, rbf_matern_formula,
      Except.map, OnnxExpM, OnnxNegM, OnnxDivMc, onnx_cdist, distOf, pdist2,
      Finset.sum_range_one, hsq]
  · norm_num [convert_kernel, convert_rbf_matern, rbf_matern_formula,
      Except.map, OnnxExpM, OnnxNegM, OnnxDivMc, OnnxCDistSem, distOf, pdist2,
      Finset.sum_range_one]
  · rw [ne_eq, Real.exp_eq_exp]
    norm_num

/-- C3: compiling Matern(length_scale 1, nu 2.5) with a training set
materializes four formula constants whose dtype handles are, in order,
the configured dtype (length scale), the configured dtype (sqrt 5), the
Python builtin `type` (the constant 1), and the configured dtype (the
constant 3) — so the constant 1 is not built with the caller-supplied
precision, refuting the claimed invariant on the code. -/
theorem c3_matern25_pytype_constant :
    (convert_kernel (.matern 1 (.val (5 / 2))) [1, 1] (fun _ _ => 0)
        (some ⟨[1, 1], fun _ _ => 0⟩) .f64 none (some 12)).map
          (fun r => r.2.map Const.dt)
      = .ok [.cfg .f64, .cfg .f64, .pyType, .cfg .f64]
    ∧ NpDt.pyType ≠ NpDt.cfg .f64 := by
  constructor
  · norm_num [convert_kernel, convert_rbf_matern, rbf_matern_formula,
      Except.map]
  · decide

/-- C9: the subgraph produced by the diagonal compiler is identical for
any two values of the `optim` flag, for every kernel expression and
input: the flag is threaded through the recursion but no diagonal
formula depends on it. -/
theorem c9_diag_ignores_optim (k : Kernel) (xs : List ℕ) (X : Mat)
    (dt : DType) (o1 o2 : Option String) (v : Option ℕ) :
    convert_kernel_diag k xs X dt o1 v = convert_kernel_diag k xs X dt o2 v := by
  cases v with
  | none => cases k <;> rfl
  | some w =>
    induction k with
    | sum k1 k2 ih1 ih2 =>
      simp only [convert_kernel_diag]
      rw [ih1, ih2]
    | prod k1 k2 ih1 ih2 =>
      simp only [convert_kernel_diag]
      rw [ih1, ih2]
    | constant c => rfl
    | rbf l => rfl
    | matern l nu => rfl
    | rationalQuadratic l a => rfl
    | expSineSquared l p => rfl
    | dotProduct s0 => rfl
    | pairwise m => rfl
    | white nl => rfl

/-- C10: for every Matern smoothness nu outside the supported set
0.5 / 1.5 / 2.5 / inf (and any recognized `optim`), the full compiler
raises a `RuntimeError`, while the diagonal compiler on the same kernel
succeeds and returns the constant-1 vector (a zero vector plus the
constant 1). -/
theorem c10_matern_nu_full_vs_diag (l : ℝ) (nu : Nu) (xs : List ℕ) (X : Mat)
    (xt : Option NDArr) (dt : DType) (o : Option String) (w : ℕ)
    (h1 : nu ≠ .val (1 / 2)) (h2 : nu ≠ .val (3 / 2))
    (h3 : nu ≠ .val (5 / 2)) (h4 : nu ≠ .inf)
    (h5 : o = none ∨ o = some "cdist") :
    convert_kernel (.matern l nu) xs X xt dt o (some w) = .error .runtime
    ∧ convert_kernel_diag (.matern l nu) xs X dt o (some w)
        = .ok (OnnxAddVc (fun _ => 0) 1,
               [⟨[0], .int64⟩, ⟨[0], .cfg dt⟩, ⟨[1], .cfg dt⟩])
    ∧ ∀ i, OnnxAddVc (fun _ => (0 : ℝ)) 1 i = 1 := by
  have h1i : nu ≠ .val 2⁻¹ := by simpa [one_div] using h1
  refine ⟨?_, ?_, fun i => by simp [OnnxAddVc]⟩
  · rcases h5 with h5 | h5 <;> subst h5 <;> cases xt <;>
      simp [convert_kernel, convert_rbf_matern, rbf_matern_formula,
        h1, h1i, h2, h3, h4]
  · simp [convert_kernel_diag, _zero_vector_of_size]

/-- C10 witness: the split behavior at the concrete unsupported value
nu = 7. -/
theorem c10_witness :
    convert_kernel (.matern 1 (.val 7)) [2, 1] (fun _ _ => 0) none .f64 none
        (some 12) = .error .runtime
    ∧ convert_kernel_diag (.matern 1 (.val 7)) [2, 1] (fun _ _ => 0) .f64 none
        (some 12)
      = .ok (OnnxAddVc (fun _ => 0) 1,
             [⟨[0], .int64⟩, ⟨[0], .cfg .f64⟩, ⟨[1], .cfg .f64⟩]) := by
  have h := c10_matern_nu_full_vs_diag 1 (.val 7) [2, 1] (fun _ _ => 0) none
    .f64 none 12
    (by simp only [ne_eq, Nu.val.injEq]; norm_num)
    (by simp only [ne_eq, Nu.val.injEq]; norm_num)
    (by simp only [ne_eq, Nu.val.injEq]; norm_num)
    (by simp) (Or.inl rfl)
  exact ⟨h.1, h.2.1⟩

/-- C8: whenever both sub-kernels compile (with identical x_train,
precision, op_version and optim), the matrix compiled for their Sum is
the elementwise sum of the separately compiled matrices and the matrix
compiled for their Product is the elementwise product; the same holds for
the diagonal compiler on vectors. -/
theorem c8_sum_product_compose (k1 k2 : Kernel) (xs : List ℕ) (X : Mat)
    (xt : Option NDArr) (dt : DType) (o : Option String) (w : ℕ)
    (A B : Mat) (ca cb : List Const) (a b : Vec) (da db : List Const)
    (h1 : convert_kernel k1 xs X xt dt o (some w) = .ok (A, ca))
    (h2 : convert_kernel k2 xs X xt dt o (some w) = .ok (B, cb))
    (h3 : convert_kernel_diag k1 xs X dt o (some w) = .ok (a, da))
    (h4 : convert_kernel_diag k2 xs X dt o (some w) = .ok (b, db)) :
    convert_kernel (.sum k1 k2) xs X xt dt o (some w)
      = .ok (fun i j => A i j + B i j, ca ++ cb)
    ∧ convert_kernel (.prod k1 k2) xs X xt dt o (some w)
      = .ok (fun i j => A i j * B i j, ca ++ cb)
    ∧ convert_kernel_diag (.sum k1 k2) xs X dt o (some w)
      = .ok (fun i => a i + b i, da ++ db)
    ∧ convert_kernel_diag (.prod k1 k2) xs X dt o (some w)
      = .ok (fun i => a i * b i, da ++ db) := by
  refine ⟨?_, ?_, ?_, ?_⟩ <;>
    simp only [convert_kernel, convert_kernel_diag, h1, h2, h3, h4] <;> rfl

/-- C8 witness: the composition laws at two concrete constant
sub-kernels. -/
theorem c8_witness :
    convert_kernel (.sum (.constant 2) (.constant 3)) [2, 1] (fun _ _ => 0)
        none .f64 none (some 12)
      = .ok (fun i j =>
          (OnnxAddMc (OnnxMatMul 1 (fun _ _ => 0)
            (OnnxTransposeM (fun _ _ => 0))) 2) i j
          + (OnnxAddMc (OnnxMatMul 1 (fun _ _ => 0)
            (OnnxTransposeM (fun _ _ => 0))) 3) i j,
          [⟨[0], .int64⟩, ⟨[1], .int64⟩, ⟨[0], .cfg .f64⟩, ⟨[2], .cfg .f64⟩]
          ++ [⟨[0], .int64⟩, ⟨[1], .int64⟩, ⟨[0], .cfg .f64⟩, ⟨[3], .cfg .f64⟩])
    ∧ convert_kernel_diag (.prod (.constant 2) (.constant 3)) [2, 1]
        (fun _ _ => 0) .f64 none (some 12)
      = .ok (fun i =>
          (OnnxAddVc (fun _ => 0) 2) i * (OnnxAddVc (fun _ => 0) 3) i,
          [⟨[0], .int64⟩, ⟨[0], .cfg .f64⟩, ⟨[2], .cfg .f64⟩]
          ++ [⟨[0], .int64⟩, ⟨[0], .cfg .f64⟩, ⟨[3], .cfg .f64⟩]) := by
  have h := c8_sum_product_compose (.constant 2) (.constant 3) [2, 1]
    (fun _ _ => 0) none .f64 none 12
    (OnnxAddMc (OnnxMatMul 1 (fun _ _ => 0) (OnnxTransposeM (fun _ _ => 0))) 2)
    (OnnxAddMc (OnnxMatMul 1 (fun _ _ => 0) (OnnxTransposeM (fun _ _ => 0))) 3)
    [⟨[0], .int64⟩, ⟨[1], .int64⟩, ⟨[0], .cfg .f64⟩, ⟨[2], .cfg .f64⟩]
    [⟨[0], .int64⟩, ⟨[1], .int64⟩, ⟨[0], .cfg .f64⟩, ⟨[3], .cfg .f64⟩]
    (OnnxAddVc (fun _ => 0) 2) (OnnxAddVc (fun _ => 0) 3)
    [⟨[0], .int64⟩, ⟨[0], .cfg .f64⟩, ⟨[2], .cfg .f64⟩]
    [⟨[0], .int64⟩, ⟨[0], .cfg .f64⟩, ⟨[3], .cfg .f64⟩]
    rfl rfl rfl rfl
  exact ⟨h.1, h.2.2.2⟩

/-- C1: for every kernel variant supported by the diagonal compiler and
every input, whenever both `convert_kernel` (with `x_train = X`) and
`convert_kernel_diag` succeed with the same precision, op_version and
optim, the diagonal vector equals, elementwise, the diagonal of the full
kernel matrix. -/
theorem c1_diag_matches_full (k : Kernel) :
    ∀ (xs : List ℕ) (X : Mat) (dt : DType) (o : Option String) (w : ℕ)
      (M : Mat) (cM : List Const) (v : Vec) (cv : List Const),
      convert_kernel k xs X (some ⟨xs, X⟩) dt o (some w) = .ok (M, cM) →
      convert_kernel_diag k xs X dt o (some w) = .ok (v, cv) →
      ∀ i, v i = M i i := by
  induction k with
  | sum k1 k2 ih1 ih2 =>
    intro xs X dt o w M cM v cv hF hD i
    simp only [convert_kernel] at hF
    simp only [convert_kernel_diag] at hD
    cases hf1 : convert_kernel k1 xs X (some ⟨xs, X⟩) dt o (some w) with
    | error e => rw [hf1] at hF; exact absurd hF (by simp)
    | ok r1 =>
      cases hf2 : convert_kernel k2 xs X (some ⟨xs, X⟩) dt o (some w) with
      | error e => rw [hf1, hf2] at hF; exact absurd hF (by simp)
      | ok r2 =>
        cases hd1 : convert_kernel_diag k1 xs X dt o (some w) with
        | error e => rw [hd1] at hD; exact absurd hD (by simp)
        | ok s1 =>
          cases hd2 : convert_kernel_diag k2 xs X dt o (some w) with
          | error e => rw [hd1, hd2] at hD; exact absurd hD (by simp)
          | ok s2 =>
            rw [hf1, hf2] at hF
            rw [hd1, hd2] at hD
            simp only [Except.ok.injEq, Prod.mk.injEq] at hF hD
            obtain ⟨hM, -⟩ := hF
            obtain ⟨hv, -⟩ := hD
            rw [← hM, ← hv]
            have e1 := ih1 xs X dt o w r1.1 r1.2 s1.1 s1.2
              (by rw [hf1]) (by rw [hd1]) i
            have e2 := ih2 xs X dt o w r2.1 r2.2 s2.1 s2.2
              (by rw [hf2]) (by rw [hd2]) i
            simp only [OnnxAddVV, OnnxAddMM]
            rw [e1, e2]
  | prod k1 k2 ih1 ih2 =>
    intro xs X dt o w M cM v cv hF hD i
    simp only [convert_kernel] at hF
    simp only [convert_kernel_diag] at hD
    cases hf1 : convert_kernel k1 xs X (some ⟨xs, X⟩) dt o (some w) with
    | error e => rw [hf1] at hF; exact absurd hF (by simp)
    | ok r1 =>
      cases hf2 : convert_kernel k2 xs X (some ⟨xs, X⟩) dt o (some w) with
      | error e => rw [hf1, hf2] at hF; exact absurd hF (by simp)
      | ok r2 =>
        cases hd1 : convert_kernel_diag k1 xs X dt o (some w) with
        | error e => rw [hd1] at hD; exact absurd hD (by simp)
        | ok s1 =>
          cases hd2 : convert_kernel_diag k2 xs X dt o (some w) with
          | error e => rw [hd1, hd2] at hD; exact absurd hD (by simp)
          | ok s2 =>
            rw [hf1, hf2] at hF
            rw [hd1, hd2] at hD
            simp only [Except.ok.injEq, Prod.mk.injEq] at hF hD
            obtain ⟨hM, -⟩ := hF
            obtain ⟨hv, -⟩ := hD
            rw [← hM, ← hv]
            have e1 := ih1 xs X dt o w r1.1 r1.2 s1.1 s1.2
              (by rw [hf1]) (by rw [hd1]) i
            have e2 := ih2 xs X dt o w r2.1 r2.2 s2.1 s2.2
              (by rw [hf2]) (by rw [hd2]) i
            simp only [OnnxMulVV, OnnxMulMM]
            rw [e1, e2]
  | constant c =>
    intro xs X dt o w M cM v cv hF hD i
    simp [convert_kernel, _zero_vector_of_size] at hF
    simp [convert_kernel_diag, _zero_vector_of_size] at hD
    obtain ⟨hM, -⟩ := hF
    obtain ⟨hv, -⟩ := hD
    rw [← hM, ← hv]
    simp [OnnxAddVc, OnnxAddMc, OnnxMatMul, OnnxTransposeM]
  | rbf l =>
    intro xs X dt o w M cM v cv hF hD i
    simp only [convert_kernel] at hF
    have hMi := convert_rbf_matern_unit_diag none l xs X dt o w M cM hF i
    simp [convert_kernel_diag, _zero_vector_of_size] at hD
    obtain ⟨hv, -⟩ := hD
    rw [← hv, hMi]
    simp [OnnxAddVc]
  | matern l nu =>
    intro xs X dt o w M cM v cv hF hD i
    simp only [convert_kernel] at hF
    have hMi := convert_rbf_matern_unit_diag (some nu) l xs X dt o w M cM hF i
    simp [convert_kernel_diag, _zero_vector_of_size] at hD
    obtain ⟨hv, -⟩ := hD
    rw [← hv, hMi]
    simp [OnnxAddVc]
  | expSineSquared l p =>
    intro xs X dt o w M cM v cv hF hD i
    simp [convert_kernel_diag, _zero_vector_of_size] at hD
    obtain ⟨hv, -⟩ := hD
    rcases o with _ | s
    · simp [convert_kernel, _convert_exp_sine_squared,
        py_make_float_array] at hF
      obtain ⟨hM, -⟩ := hF
      rw [← hv, ← hM]
      simp [OnnxAddVc, OnnxExpM, OnnxMulMc, OnnxPowMc, OnnxDivMc, OnnxSinM,
        onnx_cdist, distOf_self,
        Real.zero_rpow (by norm_num : (2 : ℝ) ≠ 0)]
    · by_cases hs : s = "cdist"
      · simp [convert_kernel, _convert_exp_sine_squared,
          py_make_float_array, hs] at hF
        obtain ⟨hM, -⟩ := hF
        rw [← hv, ← hM]
        simp [OnnxAddVc, OnnxExpM, OnnxMulMc, OnnxPowMc, OnnxDivMc, OnnxSinM,
          OnnxCDistSem, distOf_self,
          Real.zero_rpow (by norm_num : (2 : ℝ) ≠ 0)]
      · simp [convert_kernel, _convert_exp_sine_squared, hs] at hF
  | dotProduct s0 =>
    intro xs X dt o w M cM v cv hF hD i
    simp [convert_kernel_diag, py_make_float_array] at hD
    obtain ⟨hv, -⟩ := hD
    simp only [convert_kernel] at hF
    split at hF
    · exact absurd hF (by simp)
    · simp [_convert_dot_product, py_make_float_array] at hF
      obtain ⟨hM, -⟩ := hF
      rw [← hv, ← hM]
      simp [OnnxSqueezeM, OnnxAddMc, OnnxReduceSumSquareM, OnnxMatMul,
        npTransposeM, pow_two]
  | rationalQuadratic l a =>
    intro xs X dt o w M cM v cv hF hD i
    simp [convert_kernel_diag, _zero_vector_of_size] at hD
    obtain ⟨hv, -⟩ := hD
    rcases o with _ | s
    · simp [convert_kernel, _convert_rational_quadratic,
        py_make_float_array] at hF
      obtain ⟨hM, -⟩ := hF
      rw [← hv, ← hM]
      simp [OnnxAddVc, OnnxPowMc, OnnxAddMc, OnnxDivMc, onnx_cdist,
        distOf_self, Real.one_rpow]
    · by_cases hs : s = "cdist"
      · simp [convert_kernel, _convert_rational_quadratic,
          py_make_float_array, hs] at hF
        obtain ⟨hM, -⟩ := hF
        rw [← hv, ← hM]
        simp [OnnxAddVc, OnnxPowMc, OnnxAddMc, OnnxDivMc, OnnxCDistSem,
          distOf_self, Real.one_rpow]
      · simp [convert_kernel, _convert_rational_quadratic, hs] at hF
  | pairwise m =>
    intro xs X dt o w M cM v cv hF hD i
    simp only [convert_kernel_diag] at hD
    exact absurd hD (by simp)
  | white nl =>
    intro xs X dt o w M cM v cv hF hD i
    simp only [convert_kernel_diag] at hD
    exact absurd hD (by simp)

/-- C1 witness: the diagonal law at a concrete constant kernel with two
points and one feature. -/
theorem c1_witness :
    convert_kernel (.constant 2) [2, 1] (fun _ _ => 0)
        (some ⟨[2, 1], fun _ _ => 0⟩) .f64 none (some 12)
      = .ok (OnnxAddMc (OnnxMatMul 1 (fun _ _ => 0)
               (OnnxTransposeM (fun _ _ => 0))) 2,
             [⟨[0], .int64⟩, ⟨[1], .int64⟩, ⟨[0], .cfg .f64⟩,
              ⟨[0], .int64⟩, ⟨[1], .int64⟩, ⟨[0], .cfg .f64⟩,
              ⟨[2], .cfg .f64⟩])
    ∧ convert_kernel_diag (.constant 2) [2, 1] (fun _ _ => 0) .f64 none
        (some 12)
      = .ok (OnnxAddVc (fun _ => 0) 2,
             [⟨[0], .int64⟩, ⟨[0], .cfg .f64⟩, ⟨[2], .cfg .f64⟩])
    ∧ OnnxAddVc (fun _ => 0) 2 0
        = OnnxAddMc (OnnxMatMul 1 (fun _ _ => 0)
            (OnnxTransposeM (fun _ _ => 0))) 2 0 0 := by
  refine ⟨?_, ?_,
    c1_diag_matches_full (.constant 2) [2, 1] (fun _ _ => 0) .f64 none 12
      (OnnxAddMc (OnnxMatMul 1 (fun _ _ => 0)
        (OnnxTransposeM (fun _ _ => 0))) 2)
      [⟨[0], .int64⟩, ⟨[1], .int64⟩, ⟨[0], .cfg .f64⟩,
       ⟨[0], .int64⟩, ⟨[1], .int64⟩, ⟨[0], .cfg .f64⟩,
       ⟨[2], .cfg .f64⟩]
      (OnnxAddVc (fun _ => 0) 2)
      [⟨[0], .int64⟩, ⟨[0], .cfg .f64⟩, ⟨[2], .cfg .f64⟩]
      (by simp [convert_kernel, _zero_vector_of_size])
      (by simp [convert_kernel_diag, _zero_vector_of_size]) 0⟩
  · simp [convert_kernel, _zero_vector_of_size]
  · simp [convert_kernel_diag, _zero_vector_of_size]

